import Mathlib

/-!
# Verification of `osx_cal_add_event.py` date/duration parsing and validation

Shallow embedding of the parsing/validation core of `osx_cal_add_event.py`:
`parse_date`, `parse_duration`, and the end-resolution / validation pipeline of
the `__main__` block (lines 116-157 of the source).  The calendar-store
collaborator (`resolve_calendar_by_name`, `create_event`'s EventKit calls) is
external side-effecting plumbing; the pipeline below models everything from the
successful calendar lookup up to the argument tuple handed to `create_event`.

Python-level conventions modelled here:
* `str.strip()` removes leading/trailing whitespace (modelled over the ASCII
  whitespace characters; exotic Unicode whitespace behaves identically for
  every property proved below).
* `int(s)` accepts surrounding whitespace, an optional sign, and digits with
  single underscores strictly between digits (ASCII digits).
* `datetime.strptime` with the three fixed format strings
  `"%Y-%m-%d"`, `"%Y-%m-%dT%H:%M"`, `"%Y-%m-%d %H:%M"`:  `%Y` matches exactly
  four digits; `%m`, `%d`, `%H`, `%M` match one or two digits.  CPython
  compiles each directive to a regex alternation (e.g. `%m` ↦
  `1[0-2]|0[1-9]|[1-9]`); since every directive here is followed by a
  non-digit literal or the end of the pattern (where leftover characters make
  strptime raise "unconverted data remains"), regex backtracking never turns
  an overall failure into a success, so each field is equivalently read
  deterministically: take two digits when two digits are present (the value
  must lie in the directive's two-digit range), otherwise one digit.
  The matched fields then go through the `datetime` constructor, which checks
  1 ≤ year ≤ 9999 and day ≤ days-in-month.
* A failed parse raises `ValueError`; `__main__` catches exactly `ValueError`
  around both `parse_date` calls and the `parse_duration` call.  Exceptions of
  other types (`IndexError` from `duration_str[-1]` on an empty string,
  `OverflowError` from `timedelta`/`datetime` range limits) escape uncaught.
* Naive `datetime` values compare and convert to timestamps consistently with
  their epoch offset (local zone = fixed offset; the offset cancels in every
  comparison below, so it is taken as 0).
-/

namespace OsxCalAddEvent

/-- ASCII whitespace as stripped by Python's `str.strip()` and `int()`. -/
def pyIsSpace (c : Char) : Bool :=
  c = ' ' || c = '\t' || c = '\n' || c = '\r' || c = '\x0b' || c = '\x0c'

/-- `s.strip()` on the character list: drop whitespace from both ends. -/
def pyStripList (cs : List Char) : List Char :=
  (cs.dropWhile pyIsSpace).rdropWhile pyIsSpace

/-- `s.strip()` at the string level. -/
def pyStrip (s : String) : String := ⟨pyStripList s.data⟩

/-- Value of an ASCII digit character. -/
def digitVal (c : Char) : Nat := c.toNat - 48

/-- Digit run accepted by Python `int()` after sign removal: nonempty ASCII
digits with single underscores strictly between digits. -/
def okDigitsUnd : List Char → Bool
  | [] => false
  | [c] => c.isDigit
  | c :: '_' :: rest => c.isDigit && okDigitsUnd rest
  | c :: rest => c.isDigit && okDigitsUnd rest

/-- Numeric value of a digit run, skipping underscores. -/
def digitsVal (cs : List Char) : Nat :=
  cs.foldl (fun acc c => if c = '_' then acc else acc * 10 + digitVal c) 0

/-- Python `int(s)` on a string's characters: strip whitespace, optional
sign, then a digit run.  `none` models `ValueError`. -/
def pyInt (cs : List Char) : Option Int :=
  match pyStripList cs with
  | '+' :: rest => if okDigitsUnd rest then some (digitsVal rest : Int) else none
  | '-' :: rest => if okDigitsUnd rest then some (-(digitsVal rest : Int)) else none
  | t => if okDigitsUnd t then some (digitsVal t : Int) else none

/-- Python `s.split(sep)` for a one-character separator. -/
def pySplitChar (sep : Char) : List Char → List (List Char)
  | [] => [[]]
  | c :: rest =>
    match pySplitChar sep rest with
    | [] => [[]]
    | p :: ps => if c = sep then [] :: p :: ps else (c :: p) :: ps

/-- Exception classes that can escape the parsing helpers. -/
inductive PyExn
  | valueError
  | indexError
  | overflowError
deriving DecidableEq, Repr

/-- A `datetime.timedelta`, identified by its exact total length in seconds
(every timedelta built by this program is a whole number of seconds). -/
abbrev Timedelta := Int

/-- `datetime.timedelta(...)` range check: after normalisation the day count
must satisfy `abs(days) <= 999999999`, else `OverflowError`. -/
def mkTimedelta (total : Int) : Except PyExn Timedelta :=
  if -999999999 ≤ total.fdiv 86400 ∧ total.fdiv 86400 ≤ 999999999 then .ok total
  else .error .overflowError

/-- A naive `datetime.datetime` as constructed by this program
(microseconds are always 0 and are omitted). -/
structure PyDateTime where
  year : Nat
  month : Nat
  day : Nat
  hour : Nat
  minute : Nat
  second : Nat
deriving DecidableEq, Repr

/-- Gregorian leap year, as in Python's `calendar`/`datetime`. -/
def isLeap (y : Nat) : Bool := y % 4 = 0 && (y % 100 ≠ 0 || y % 400 = 0)

/-- Days in a month of a given year. -/
def daysInMonth (y m : Nat) : Nat :=
  if m = 2 then (if isLeap y then 29 else 28)
  else if m = 4 || m = 6 || m = 9 || m = 11 then 30 else 31

/-- The `datetime.datetime(y, mo, d, h, mi)` constructor's validation:
`MINYEAR = 1`, `MAXYEAR = 9999`, day within the month, fields in range.
`none` models `ValueError`. -/
def mkDatetime (y mo d h mi : Nat) : Option PyDateTime :=
  if 1 ≤ y ∧ y ≤ 9999 ∧ 1 ≤ mo ∧ mo ≤ 12 ∧ 1 ≤ d ∧ d ≤ daysInMonth y mo
      ∧ h ≤ 23 ∧ mi ≤ 59 then
    some ⟨y, mo, d, h, mi, 0⟩
  else none

/-- strptime `%Y`: exactly four digits. -/
def parseY : List Char → Option (Nat × List Char)
  | a :: b :: c :: d :: rest =>
    if a.isDigit && b.isDigit && c.isDigit && d.isDigit then
      some (digitVal a * 1000 + digitVal b * 100 + digitVal c * 10 + digitVal d, rest)
    else none
  | _ => none

/-- A literal character of the format string. -/
def parseLit (c : Char) : List Char → Option (List Char)
  | a :: rest => if a = c then some rest else none
  | [] => none

/-- strptime two-or-one-digit numeric directive (`%m`, `%d`, `%H`, `%M`):
two digits are taken when two digits are present (the value must be in
`lo2..hi2`), else a single digit with value at least `oneLo`
(`oneLo = 1` for `[1-9]`, `0` for `\d`).  See the header comment for why
this deterministic reading is equivalent to CPython's regex. -/
def parseNumField (lo2 hi2 oneLo : Nat) : List Char → Option (Nat × List Char)
  | a :: b :: rest =>
    if a.isDigit then
      if b.isDigit then
        let v := digitVal a * 10 + digitVal b
        if lo2 ≤ v ∧ v ≤ hi2 then some (v, rest) else none
      else if oneLo ≤ digitVal a then some (digitVal a, b :: rest) else none
    else none
  | [a] => if a.isDigit ∧ oneLo ≤ digitVal a then some (digitVal a, []) else none
  | [] => none

/-- `datetime.strptime(cs, "%Y-%m-%d")`, including the `datetime`
constructor's range validation and the trailing-garbage check. -/
def strptimeDateOnly (cs : List Char) : Option PyDateTime :=
  match parseY cs with
  | some (y, r1) =>
    match parseLit '-' r1 with
    | some r2 =>
      match parseNumField 1 12 1 r2 with
      | some (mo, r3) =>
        match parseLit '-' r3 with
        | some r4 =>
          match parseNumField 1 31 1 r4 with
          | some (d, r5) => if r5 = [] then mkDatetime y mo d 0 0 else none
          | none => none
        | none => none
      | none => none
    | none => none
  | none => none

/-- `datetime.strptime(cs, "%Y-%m-%d" ++ sep ++ "%H:%M")` where `sep` is the
literal `'T'` or `' '` of the two timed formats. -/
def strptimeWithTime (sep : Char) (cs : List Char) : Option PyDateTime :=
  match parseY cs with
  | some (y, r1) =>
    match parseLit '-' r1 with
    | some r2 =>
      match parseNumField 1 12 1 r2 with
      | some (mo, r3) =>
        match parseLit '-' r3 with
        | some r4 =>
          match parseNumField 1 31 1 r4 with
          | some (d, r5) =>
            match parseLit sep r5 with
            | some r6 =>
              match parseNumField 0 23 0 r6 with
              | some (h, r7) =>
                match parseLit ':' r7 with
                | some r8 =>
                  match parseNumField 0 59 0 r8 with
                  | some (mi, r9) => if r9 = [] then mkDatetime y mo d h mi else none
                  | none => none
                | none => none
              | none => none
            | none => none
          | none => none
        | none => none
      | none => none
    | none => none
  | none => none

/-- `parse_date` (source lines 17-29): strip, pick the format from the
presence of `'T'` or `' '`, run strptime.  `none` models the `ValueError`
this function can raise; `true`/`false` is `time_included`. -/
def parse_date (date_str : String) : Option (PyDateTime × Bool) :=
  let ds := pyStripList date_str.data
  if ds.contains 'T' || ds.contains ' ' then
    if ds.contains 'T' then (strptimeWithTime 'T' ds).map (fun dt => (dt, true))
    else (strptimeWithTime ' ' ds).map (fun dt => (dt, true))
  else (strptimeDateOnly ds).map (fun dt => (dt, false))

/-- `parse_duration` (source lines 32-45): strip, then
`HH:MM` if a colon is present, else suffix `m` (minutes) or `h` (hours),
else `raise ValueError`.  `duration_str[-1]` on an empty stripped string
raises `IndexError`; `int()` failures and the bad-shape/unpacking cases raise
`ValueError`; `timedelta` out of range raises `OverflowError`. -/
def parse_duration (duration_str : String) : Except PyExn Timedelta :=
  let ds := pyStripList duration_str.data
  if ds.contains ':' then
    match pySplitChar ':' ds with
    | [hs, ms] =>
      match pyInt hs, pyInt ms with
      | some h, some m => mkTimedelta (h * 3600 + m * 60)
      | _, _ => .error .valueError
    | _ => .error .valueError
  else
    match ds.getLast? with
    | none => .error .indexError
    | some c =>
      if c = 'm' then
        match pyInt ds.dropLast with
        | some m => mkTimedelta (m * 60)
        | none => .error .valueError
      else if c = 'h' then
        match pyInt ds.dropLast with
        | some h => mkTimedelta (h * 3600)
        | none => .error .valueError
      else .error .valueError

/-- Days since 1970-01-01 of a civil date (Gregorian, proleptic); standard
days-from-civil computation, matching `datetime.date.toordinal` shifted to
the Unix epoch.  Only called with `1 ≤ y` (enforced by `mkDatetime`). -/
def daysFromCivil (y m d : Nat) : Int :=
  let y1 := y - (if m ≤ 2 then 1 else 0)
  let era := y1 / 400
  let yoe := y1 % 400
  let mp := if 2 < m then m - 3 else m + 9
  let doy := (153 * mp + 2) / 5 + (d - 1)
  let doe := yoe * 365 + yoe / 4 - yoe / 100 + doy
  ((era * 146097 + doe : Nat) : Int) - 719468

/-- Inverse of `daysFromCivil` (civil-from-days); the year is returned as an
`Int` so the out-of-`MINYEAR..MAXYEAR` overflow check can be expressed. -/
def civilFromDays (z : Int) : Int × Nat × Nat :=
  let z1 := z + 719468
  let era := z1.fdiv 146097
  let doe := (z1 - era * 146097).toNat
  let yoe := (doe - doe / 1460 + doe / 36524 - doe / 146096) / 365
  let doy := doe - (365 * yoe + yoe / 4 - yoe / 100)
  let mp := (5 * doy + 2) / 153
  let d := doy - (153 * mp + 2) / 5 + 1
  let m := if mp < 10 then mp + 3 else mp - 9
  ((yoe : Int) + era * 400 + (if m ≤ 2 then 1 else 0), m, d)

/-- The instant of a naive datetime as seconds since the epoch
(`datetime.timestamp()` up to the constant local-zone offset, which cancels
in every comparison made by the program). -/
def toEpochSecs (dt : PyDateTime) : Int :=
  daysFromCivil dt.year dt.month dt.day * 86400
    + dt.hour * 3600 + dt.minute * 60 + dt.second

/-- `datetime + timedelta` (`end = start + duration`): exact arithmetic on
the instant; `none` models the `OverflowError` raised when the result falls
outside years 1..9999. -/
def dtAdd (dt : PyDateTime) (td : Timedelta) : Option PyDateTime :=
  let total := toEpochSecs dt + td
  let days := total.fdiv 86400
  let secs := (total - days * 86400).toNat
  match civilFromDays days with
  | (y, m, d) =>
    if 1 ≤ y ∧ y ≤ 9999 then
      some ⟨y.toNat, m, d, secs / 3600, secs % 3600 / 60, secs % 60⟩
    else none

/-- The validated request handed to `create_event` (plus the strings passed
through unchanged). -/
structure EventRequest where
  start : PyDateTime
  endDt : PyDateTime
  is_all_day : Bool
  title : String
  calendar_name : String
deriving DecidableEq, Repr

/-- Outcome of one invocation of the `__main__` pipeline (after a successful
calendar lookup, which precedes all parsing in the source).  The `exit(1)`
paths are the named error kinds; `crash e` is an exception of a type other
than `ValueError` escaping the `try` blocks uncaught. -/
inductive RunOutcome
  | ok (req : EventRequest)
  | invalidDateFormat
  | invalidDurationFormat
  | inconsistentTimeSpecification
  | endBeforeStart
  | crash (e : PyExn)
deriving DecidableEq, Repr

/-- End resolution, source lines 124-145: an explicit end date wins; else a
duration is parsed only when the start had a time; else `end = start` with
`end_date_time_included` left `False`. -/
def resolveEnd (start : PyDateTime) (was_time_included : Bool)
    (end_date duration : String) : Except RunOutcome (PyDateTime × Bool) :=
  if end_date ≠ "" then
    match parse_date end_date with
    | some (e, eti) => .ok (e, eti)
    | none => .error .invalidDateFormat
  else if duration ≠ "" ∧ was_time_included = true then
    match parse_duration duration with
    | .ok d =>
      match dtAdd start d with
      | some e => .ok (e, true)
      | none => .error (.crash .overflowError)
    | .error .valueError => .error .invalidDurationFormat
    | .error e => .error (.crash e)
  else .ok (start, false)

/-- The `__main__` pipeline, source lines 116-157: parse the start, resolve
the end, run the two validation checks in order, and on success hand
`(start, end, not was_time_included, title, calendar)` to `create_event`. -/
def run (date title end_date duration calendar : String) : RunOutcome :=
  match parse_date date with
  | none => .invalidDateFormat
  | some (start, was_time_included) =>
    match resolveEnd start was_time_included end_date duration with
    | .error e => e
    | .ok (endDt, end_date_time_included) =>
      if was_time_included && ! end_date_time_included then
        .inconsistentTimeSpecification
      else if toEpochSecs endDt < toEpochSecs start then
        .endBeforeStart
      else
        .ok ⟨start, endDt, ! was_time_included, title, calendar⟩

/-! ## Helper lemmas -/

lemma pyStrip_data (s : String) : (pyStrip s).data = pyStripList s.data := rfl

lemma pyStripList_idem (cs : List Char) :
    pyStripList (pyStripList cs) = pyStripList cs := by
  unfold pyStripList
  have h1 : List.dropWhile pyIsSpace (cs.dropWhile pyIsSpace) = cs.dropWhile pyIsSpace :=
    List.dropWhile_idempotent pyIsSpace cs
  have h2 : List.dropWhile pyIsSpace ((cs.dropWhile pyIsSpace).rdropWhile pyIsSpace)
      = (cs.dropWhile pyIsSpace).rdropWhile pyIsSpace := by
    rw [List.dropWhile_eq_self_iff]
    intro hl
    have hpre : (cs.dropWhile pyIsSpace).rdropWhile pyIsSpace <+: cs.dropWhile pyIsSpace :=
      List.rdropWhile_prefix pyIsSpace (cs.dropWhile pyIsSpace)
    have hlen : 0 < (cs.dropWhile pyIsSpace).length := lt_of_lt_of_le hl hpre.length_le
    have h3 := (List.dropWhile_eq_self_iff).mp h1 hlen
    rw [List.get_eq_getElem] at h3 ⊢
    rw [hpre.getElem hl]
    exact h3
  rw [h2, List.rdropWhile_idempotent]

lemma mem_of_mem_pyStripList {x : Char} {cs : List Char} (h : x ∈ pyStripList cs) :
    x ∈ cs :=
  (List.dropWhile_suffix pyIsSpace).subset
    ((List.rdropWhile_prefix pyIsSpace (cs.dropWhile pyIsSpace)).subset h)

lemma mem_of_mem_pySplitChar {sep x : Char} : ∀ {cs part : List Char},
    part ∈ pySplitChar sep cs → x ∈ part → x ∈ cs := by
  intro cs
  induction cs with
  | nil =>
    intro part hp hx
    simp only [pySplitChar, List.mem_singleton] at hp
    subst hp
    simp at hx
  | cons c rest ih =>
    intro part hp hx
    simp only [pySplitChar] at hp
    rcases hrec : pySplitChar sep rest with _ | ⟨p, ps⟩
    · rw [hrec] at hp
      simp only [List.mem_singleton] at hp
      subst hp
      simp at hx
    · rw [hrec] at hp
      change part ∈ (if c = sep then [] :: p :: ps else (c :: p) :: ps) at hp
      by_cases hc : c = sep
      · rw [if_pos hc] at hp
        rcases List.mem_cons.mp hp with h0 | h0
        · subst h0; simp at hx
        · exact List.mem_cons_of_mem c (ih (hrec ▸ h0) hx)
      · rw [if_neg hc] at hp
        rcases List.mem_cons.mp hp with h0 | h0
        · subst h0
          rcases List.mem_cons.mp hx with h1 | h1
          · exact h1 ▸ List.mem_cons_self c rest
          · exact List.mem_cons_of_mem c
              (ih (hrec ▸ List.mem_cons_self p ps) h1)
        · exact List.mem_cons_of_mem c (ih (hrec ▸ List.mem_cons_of_mem p h0) hx)

lemma pyInt_nonneg {cs : List Char} {v : Int} (h : pyInt cs = some v)
    (hm : '-' ∉ cs) : 0 ≤ v := by
  unfold pyInt at h
  split at h
  · split at h
    · injection h with h; subst h; exact Int.natCast_nonneg _
    · exact absurd h (by simp)
  · rename_i rest heq
    exact absurd (mem_of_mem_pyStripList (heq ▸ List.mem_cons_self '-' rest)) hm
  · split at h
    · injection h with h; subst h; exact Int.natCast_nonneg _
    · exact absurd h (by simp)

lemma mkTimedelta_ok {t d : Int} (h : mkTimedelta t = .ok d) : d = t := by
  unfold mkTimedelta at h
  split at h
  · injection h with h; exact h.symm
  · exact absurd h (by simp)

lemma strptimeDateOnly_fields {cs : List Char} {dt : PyDateTime}
    (h : strptimeDateOnly cs = some dt) :
    dt.hour = 0 ∧ dt.minute = 0 ∧ dt.second = 0 := by
  unfold strptimeDateOnly at h
  repeat' split at h
  all_goals try exact absurd h (by simp)
  unfold mkDatetime at h
  split at h
  · injection h with h2; subst h2; exact ⟨rfl, rfl, rfl⟩
  · exact absurd h (by simp)

lemma resolveEnd_error_cases {start : PyDateTime} {ti : Bool} {ed du : String}
    {e : RunOutcome} (h : resolveEnd start ti ed du = .error e) :
    e = .invalidDateFormat ∨ e = .invalidDurationFormat ∨ ∃ x, e = .crash x := by
  unfold resolveEnd at h
  repeat' split at h
  all_goals first
  | exact Except.noConfusion h
  | (injection h with h
     first
     | exact Or.inl h.symm
     | exact Or.inr (Or.inl h.symm)
     | exact Or.inr (Or.inr ⟨_, h.symm⟩))
/-! ## Claim theorems -/

/-- C10: `parse_date` is invariant under trimming: for every input string,
parsing the string with leading/trailing whitespace removed gives the same
result (or failure) as parsing the original, because the format test runs on
the already-trimmed string. -/
theorem parse_date_trim_invariant (s : String) :
    parse_date (pyStrip s) = parse_date s := by
  simp only [parse_date, pyStrip_data, pyStripList_idem]

/-- C3: `parse_date` selects its format purely syntactically from the trimmed
input: a `'T'` selects `YYYY-MM-DDTHH:MM` with `has_time = true`; else a space
selects `YYYY-MM-DD HH:MM` with `has_time = true`; else `YYYY-MM-DD` with
`has_time = false`; in each case only the selected strptime format is
attempted, and its failure (`none`) is the failure of `parse_date`. -/
theorem parse_date_format_selection (s : String) :
    ((pyStripList s.data).contains 'T' = true →
      parse_date s
        = (strptimeWithTime 'T' (pyStripList s.data)).map (fun dt => (dt, true))) ∧
    ((pyStripList s.data).contains 'T' = false →
      (pyStripList s.data).contains ' ' = true →
      parse_date s
        = (strptimeWithTime ' ' (pyStripList s.data)).map (fun dt => (dt, true))) ∧
    ((pyStripList s.data).contains 'T' = false →
      (pyStripList s.data).contains ' ' = false →
      parse_date s
        = (strptimeDateOnly (pyStripList s.data)).map (fun dt => (dt, false))) := by
  refine ⟨fun h => ?_, fun h1 h2 => ?_, fun h1 h2 => ?_⟩
  · have h0 : 'T' ∈ pyStripList s.data := by simpa using h
    simp [parse_date, h0]
  · have h0 : 'T' ∉ pyStripList s.data := by simpa using h1
    have h3 : ' ' ∈ pyStripList s.data := by simpa using h2
    simp [parse_date, h0, h3]
  · have h0 : 'T' ∉ pyStripList s.data := by simpa using h1
    have h3 : ' ' ∉ pyStripList s.data := by simpa using h2
    simp [parse_date, h0, h3]

/-- C9: every string whose trimmed form contains neither `'T'` nor a space
(the date-only `YYYY-MM-DD` selection) that `parse_date` accepts comes back
with `has_time = false` and a timestamp at midnight (hour, minute and second
all zero). -/
theorem parse_date_dateonly_midnight (s : String) (dt : PyDateTime) (ht : Bool)
    (h1 : (pyStripList s.data).contains 'T' = false)
    (h2 : (pyStripList s.data).contains ' ' = false)
    (h : parse_date s = some (dt, ht)) :
    ht = false ∧ dt.hour = 0 ∧ dt.minute = 0 ∧ dt.second = 0 := by
  rw [parse_date] at h
  simp only [h1, h2, Bool.or_self, Bool.false_eq_true, if_false] at h
  rcases hmap : strptimeDateOnly (pyStripList s.data) with _ | dt0
  · rw [hmap] at h; exact absurd h (by simp)
  · rw [hmap] at h
    simp only [Option.map_some', Option.some.injEq, Prod.mk.injEq] at h
    obtain ⟨hdt, hht⟩ := h
    subst hdt
    exact ⟨hht.symm, strptimeDateOnly_fields hmap⟩

/-- C5: a start string that parses with a time-of-day, combined with no
end-date string and no duration string, always fails validation with
`InconsistentTimeSpecification`: a timed start alone never yields a valid
event request. -/
theorem run_timed_start_alone (date title cal : String) (start : PyDateTime)
    (hp : parse_date date = some (start, true)) :
    run date title "" "" cal = .inconsistentTimeSpecification := by
  simp [run, hp, resolveEnd]

/-- C1: end resolution follows a strict precedence.  A supplied (nonempty)
end-date string is parsed by `parse_date` and its result taken verbatim;
otherwise a supplied duration is parsed only when the start had a time, with
`end = start + duration` and `end_has_time = true`; otherwise — including when
a duration was supplied but the start was date-only — `end = start`,
`end_has_time = false`, and the duration string is never parsed (the result
does not depend on it). -/
theorem resolveEnd_precedence (start : PyDateTime) (ti : Bool) (ed du : String) :
    (ed ≠ "" →
      resolveEnd start ti ed du =
        match parse_date ed with
        | some (e, eti) => .ok (e, eti)
        | none => .error .invalidDateFormat) ∧
    (ed = "" → du ≠ "" → ti = true → ∀ d e, parse_duration du = .ok d →
      dtAdd start d = some e → resolveEnd start ti ed du = .ok (e, true)) ∧
    (ed = "" → (du = "" ∨ ti = false) → resolveEnd start ti ed du = .ok (start, false)) := by
  refine ⟨fun h => ?_, fun h1 h2 h3 d e hd he => ?_, fun h1 h2 => ?_⟩
  · unfold resolveEnd
    rw [if_pos h]
  · unfold resolveEnd
    rw [if_neg (fun hc => hc h1), if_pos ⟨h2, h3⟩]
    simp only [hd, he]
  · unfold resolveEnd
    rw [if_neg (fun hc => hc h1)]
    rcases h2 with h2 | h2
    · rw [if_neg (fun hc => hc.1 h2)]
    · rw [if_neg (fun hc => by rw [h2] at hc; exact Bool.false_ne_true hc.2)]

/-- C2: when the start parsed with a time-of-day and the end resolution
succeeded, validation fails with `InconsistentTimeSpecification` exactly when
the resolved `end_has_time` is false; when the start had no time-of-day the
check never fires, whatever the other arguments are. -/
theorem run_inconsistent_time_iff (date title ed du cal : String)
    (start : PyDateTime) (e : PyDateTime) (eti : Bool) :
    (parse_date date = some (start, true) →
      resolveEnd start true ed du = .ok (e, eti) →
      (run date title ed du cal = .inconsistentTimeSpecification ↔ eti = false)) ∧
    (parse_date date = some (start, false) →
      run date title ed du cal ≠ .inconsistentTimeSpecification) := by
  constructor
  · intro hp hr
    cases eti with
    | false => simp [run, hp, hr]
    | true =>
      simp only [run, hp, hr, Bool.not_true, Bool.and_false, Bool.false_eq_true, if_false]
      constructor
      · intro h; split at h <;> exact absurd h (by simp)
      · intro h; exact absurd h (by simp)
  · intro hp
    simp only [run, hp]
    rcases hr : resolveEnd start false ed du with e0 | ⟨e1, eti1⟩
    · rcases resolveEnd_error_cases hr with h | h | ⟨x, h⟩ <;> subst h <;> simp
    · simp only [Bool.false_and, Bool.false_eq_true, if_false]
      split <;> simp

/-- C6: once the start parsed and end resolution and the time-consistency
check passed, validation fails with `EndBeforeStart` exactly when the
resolved end's timestamp is strictly earlier than the start's (an equal
timestamp is accepted); consequently every `EventRequest` produced by a run
satisfies `end.timestamp >= start.timestamp`. -/
theorem run_end_before_start (date title ed du cal : String) :
    (∀ (start e : PyDateTime) (ti eti : Bool),
      parse_date date = some (start, ti) →
      resolveEnd start ti ed du = .ok (e, eti) →
      (ti && !eti) = false →
      (run date title ed du cal = .endBeforeStart ↔ toEpochSecs e < toEpochSecs start)) ∧
    (∀ req : EventRequest, run date title ed du cal = .ok req →
      toEpochSecs req.start ≤ toEpochSecs req.endDt) := by
  constructor
  · intro start e ti eti hp hr htc
    simp only [run, hp, hr, htc, Bool.false_eq_true, if_false]
    constructor
    · intro h
      by_contra hlt
      rw [if_neg hlt] at h
      exact absurd h (by simp)
    · intro h; rw [if_pos h]
  · intro req h
    rcases hp : parse_date date with _ | ⟨start, ti⟩
    · rw [run, hp] at h; exact absurd h (by simp)
    · rcases hr : resolveEnd start ti ed du with e0 | ⟨e1, eti1⟩
      · simp only [run, hp, hr] at h
        rcases resolveEnd_error_cases hr with h2 | h2 | ⟨x, h2⟩ <;> subst h2 <;>
          exact absurd h (by simp)
      · simp only [run, hp, hr] at h
        split at h
        · exact absurd h (by simp)
        · split at h
          · exact absurd h (by simp)
          · rename_i hnlt
            injection h with h
            subst h
            exact Int.not_lt.mp hnlt

/-- C7: for every invocation that passes validation, the all-day flag of the
produced `EventRequest` (handed to `create_event`) is the negation of the
start's `has_time` flag. -/
theorem run_all_day_flag (date title ed du cal : String) (start : PyDateTime)
    (ti : Bool) (req : EventRequest)
    (hp : parse_date date = some (start, ti))
    (h : run date title ed du cal = .ok req) :
    req.is_all_day = ! ti := by
  rcases hr : resolveEnd start ti ed du with e0 | ⟨e1, eti1⟩
  · simp only [run, hp, hr] at h
    rcases resolveEnd_error_cases hr with h2 | h2 | ⟨x, h2⟩ <;> subst h2 <;>
      exact absurd h (by simp)
  · simp only [run, hp, hr] at h
    split at h
    · exact absurd h (by simp)
    · split at h
      · exact absurd h (by simp)
      · injection h with h
        subst h
        rfl

/-- C4 counterexample: a whitespace-only duration string matches none of the
three shapes, yet `parse_duration` does not fail with
`InvalidDurationFormat` (`ValueError`): `duration_str[-1]` on the empty
stripped string raises `IndexError` instead. -/
theorem parse_duration_empty_not_value_error :
    parse_duration "   " = .error .indexError ∧
    parse_duration "   " ≠ .error .valueError := by
  constructor
  · rfl
  · intro h
    rw [show parse_duration "   " = Except.error PyExn.indexError from rfl] at h
    exact absurd (Except.error.injEq .. ▸ h) (by simp)

/-- C4 (amended): on the trimmed input, `parse_duration` tries the colon
shape, then the `m` suffix, then the `h` suffix, and fails with
`InvalidDurationFormat` (`ValueError`) when no shape matches, when the colon
form does not split into exactly two parts, or when a prefix fails integer
parsing — except that an input that is empty after trimming raises an
uncaught index error instead (and an in-shape value outside the `timedelta`
range raises an uncaught overflow error). -/
theorem parse_duration_failure_modes (s : String) :
    (pyStripList s.data = [] → parse_duration s = .error .indexError) ∧
    (∀ c, (pyStripList s.data).contains ':' = false →
      (pyStripList s.data).getLast? = some c → c ≠ 'm' → c ≠ 'h' →
      parse_duration s = .error .valueError) ∧
    ((pyStripList s.data).contains ':' = true →
      (pySplitChar ':' (pyStripList s.data)).length ≠ 2 →
      parse_duration s = .error .valueError) ∧
    (∀ hs ms, (pyStripList s.data).contains ':' = true →
      pySplitChar ':' (pyStripList s.data) = [hs, ms] →
      (pyInt hs = none ∨ pyInt ms = none) →
      parse_duration s = .error .valueError) ∧
    (∀ c, (pyStripList s.data).contains ':' = false →
      (pyStripList s.data).getLast? = some c → (c = 'm' ∨ c = 'h') →
      pyInt (pyStripList s.data).dropLast = none →
      parse_duration s = .error .valueError) := by
  refine ⟨fun h => ?_, fun c h1 h2 h3 h4 => ?_, fun h1 h2 => ?_,
    fun hs ms h1 h2 h3 => ?_, fun c h1 h2 h3 h4 => ?_⟩
  · simp [parse_duration, h]
  · have h1n : ':' ∉ pyStripList s.data := by simpa using h1
    simp [parse_duration, h1n, h2, h3, h4]
  · have hcont : ':' ∈ pyStripList s.data := by simpa using h1
    rcases hsp : pySplitChar ':' (pyStripList s.data) with _ | ⟨a, _ | ⟨b, _ | _⟩⟩
    · simp [parse_duration, hcont, hsp]
    · simp [parse_duration, hcont, hsp]
    · rw [hsp] at h2; simp at h2
    · simp [parse_duration, hcont, hsp]
  · have hcont : ':' ∈ pyStripList s.data := by simpa using h1
    rcases h3 with h3 | h3
    · simp [parse_duration, hcont, h2, h3]
    · rcases hh : pyInt hs with _ | v <;> simp [parse_duration, hcont, h2, h3, hh]
  · have h1n : ':' ∉ pyStripList s.data := by simpa using h1
    rcases h3 with h3 | h3 <;> subst h3 <;> simp [parse_duration, h1n, h2, h4]

/-- C8 counterexample: `parse_duration` accepts `"-30m"` and returns the
negative span of −30 minutes, so a successfully parsed duration is not
always non-negative. -/
theorem parse_duration_negative_span :
    parse_duration "-30m" = .ok (-1800) ∧ ¬ (0 ≤ (-1800 : Timedelta)) := by
  exact ⟨rfl, by decide⟩

/-- C8 (amended): the span returned by `parse_duration` can be negative when
a parsed integer component is negative; for every accepted input containing
no minus sign the returned span is non-negative. -/
theorem parse_duration_nonneg_without_minus (s : String) (d : Timedelta)
    (h : parse_duration s = .ok d) (hm : '-' ∉ s.data) : 0 ≤ d := by
  have hm2 : '-' ∉ pyStripList s.data := fun hx => hm (mem_of_mem_pyStripList hx)
  simp only [parse_duration] at h
  split at h
  · rcases hsp : pySplitChar ':' (pyStripList s.data) with _ | ⟨a, _ | ⟨b, _ | _⟩⟩ <;>
      simp only [hsp] at h
    · exact absurd h (by simp)
    · exact absurd h (by simp)
    · rcases ha : pyInt a with _ | va <;> rcases hb : pyInt b with _ | vb <;>
        simp only [ha, hb] at h
      · exact absurd h (by simp)
      · exact absurd h (by simp)
      · exact absurd h (by simp)
      · have hva : 0 ≤ va := pyInt_nonneg ha
          (fun hx => hm2 (mem_of_mem_pySplitChar (hsp ▸ List.mem_cons_self a [b]) hx))
        have hvb : 0 ≤ vb := pyInt_nonneg hb
          (fun hx => hm2 (mem_of_mem_pySplitChar
            (hsp ▸ List.mem_cons_of_mem a (List.mem_cons_self b [])) hx))
        rw [mkTimedelta_ok h]
        exact add_nonneg (mul_nonneg hva (by norm_num : (0:Int) ≤ 3600))
          (mul_nonneg hvb (by norm_num : (0:Int) ≤ 60))
    · exact absurd h (by simp)
  · have hdrop : '-' ∉ (pyStripList s.data).dropLast :=
      fun hx => hm2 (List.dropLast_subset _ hx)
    split at h
    · exact absurd h (by simp)
    · split at h
      · split at h
        · rename_i v hi
          rw [mkTimedelta_ok h]
          exact mul_nonneg (pyInt_nonneg hi hdrop) (by norm_num)
        · exact absurd h (by simp)
      · split at h
        · split at h
          · rename_i v hi
            rw [mkTimedelta_ok h]
            exact mul_nonneg (pyInt_nonneg hi hdrop) (by norm_num)
          · exact absurd h (by simp)
        · exact absurd h (by simp)

/-! ## Witnesses: the theorems above applied at concrete inputs -/

theorem parse_date_format_selection_witness :
    parse_date "2024-06-01T09:00"
      = (strptimeWithTime 'T' (pyStripList "2024-06-01T09:00".data)).map
          (fun dt => (dt, true)) ∧
    parse_date "2024-06-01 09:00"
      = (strptimeWithTime ' ' (pyStripList "2024-06-01 09:00".data)).map
          (fun dt => (dt, true)) ∧
    parse_date "2024-06-01"
      = (strptimeDateOnly (pyStripList "2024-06-01".data)).map (fun dt => (dt, false)) :=
  ⟨(parse_date_format_selection "2024-06-01T09:00").1 (by decide),
   (parse_date_format_selection "2024-06-01 09:00").2.1 (by decide) (by decide),
   (parse_date_format_selection "2024-06-01").2.2 (by decide) (by decide)⟩

theorem parse_date_dateonly_midnight_witness :
    (false : Bool) = false ∧ (PyDateTime.mk 2024 6 1 0 0 0).hour = 0
      ∧ (PyDateTime.mk 2024 6 1 0 0 0).minute = 0
      ∧ (PyDateTime.mk 2024 6 1 0 0 0).second = 0 :=
  parse_date_dateonly_midnight "2024-06-01" ⟨2024, 6, 1, 0, 0, 0⟩ false
    (by decide) (by decide) (by decide)

theorem run_timed_start_alone_witness :
    run "2024-06-01T09:00" "meeting" "" "" "Home" = .inconsistentTimeSpecification :=
  run_timed_start_alone "2024-06-01T09:00" "meeting" "Home" ⟨2024, 6, 1, 9, 0, 0⟩
    (by decide)

theorem resolveEnd_precedence_witness :
    resolveEnd ⟨2024, 6, 1, 9, 0, 0⟩ true "2024-06-02" "" =
      (match parse_date "2024-06-02" with
       | some (e, eti) => .ok (e, eti)
       | none => .error .invalidDateFormat) ∧
    resolveEnd ⟨2024, 6, 1, 9, 0, 0⟩ true "" "1h" = .ok (⟨2024, 6, 1, 10, 0, 0⟩, true) ∧
    resolveEnd ⟨2024, 6, 1, 0, 0, 0⟩ false "" "garbage" = .ok (⟨2024, 6, 1, 0, 0, 0⟩, false) :=
  ⟨(resolveEnd_precedence ⟨2024, 6, 1, 9, 0, 0⟩ true "2024-06-02" "").1 (by decide),
   (resolveEnd_precedence ⟨2024, 6, 1, 9, 0, 0⟩ true "" "1h").2.1 rfl (by decide) rfl
     3600 ⟨2024, 6, 1, 10, 0, 0⟩ rfl (by decide),
   (resolveEnd_precedence ⟨2024, 6, 1, 0, 0, 0⟩ false "" "garbage").2.2 rfl (Or.inr rfl)⟩

theorem run_inconsistent_time_iff_witness :
    run "2024-06-01T09:00" "t" "2024-06-02" "" "Home" = .inconsistentTimeSpecification ∧
    run "2024-06-01" "t" "" "" "Home" ≠ .inconsistentTimeSpecification :=
  ⟨((run_inconsistent_time_iff "2024-06-01T09:00" "t" "2024-06-02" "" "Home"
      ⟨2024, 6, 1, 9, 0, 0⟩ ⟨2024, 6, 2, 0, 0, 0⟩ false).1 (by decide) rfl).mpr rfl,
   (run_inconsistent_time_iff "2024-06-01" "t" "" "" "Home"
      ⟨2024, 6, 1, 0, 0, 0⟩ ⟨2024, 6, 1, 0, 0, 0⟩ false).2 (by decide)⟩

theorem run_end_before_start_witness :
    run "2024-06-02" "t" "2024-06-01" "" "Home" = .endBeforeStart ∧
    toEpochSecs (PyDateTime.mk 2024 6 1 0 0 0) ≤ toEpochSecs (PyDateTime.mk 2024 6 1 0 0 0) :=
  ⟨((run_end_before_start "2024-06-02" "t" "2024-06-01" "" "Home").1
      ⟨2024, 6, 2, 0, 0, 0⟩ ⟨2024, 6, 1, 0, 0, 0⟩ false false
      (by decide) rfl (by decide)).mpr (by decide),
   (run_end_before_start "2024-06-01" "t" "" "" "Home").2
      ⟨⟨2024, 6, 1, 0, 0, 0⟩, ⟨2024, 6, 1, 0, 0, 0⟩, true, "t", "Home"⟩ (by decide)⟩

theorem run_all_day_flag_witness :
    (EventRequest.mk ⟨2024, 6, 1, 0, 0, 0⟩ ⟨2024, 6, 1, 0, 0, 0⟩ true "t" "Home").is_all_day
      = ! false :=
  run_all_day_flag "2024-06-01" "t" "" "" "Home" ⟨2024, 6, 1, 0, 0, 0⟩ false
    ⟨⟨2024, 6, 1, 0, 0, 0⟩, ⟨2024, 6, 1, 0, 0, 0⟩, true, "t", "Home"⟩ (by decide) (by decide)

theorem parse_duration_failure_modes_witness :
    parse_duration "" = .error .indexError ∧
    parse_duration "xyz" = .error .valueError ∧
    parse_duration "1:2:3" = .error .valueError ∧
    parse_duration "a:b" = .error .valueError ∧
    parse_duration "xm" = .error .valueError :=
  ⟨(parse_duration_failure_modes "").1 (by decide),
   (parse_duration_failure_modes "xyz").2.1 'z' (by decide) (by decide) (by decide) (by decide),
   (parse_duration_failure_modes "1:2:3").2.2.1 (by decide) (by decide),
   (parse_duration_failure_modes "a:b").2.2.2.1 ['a'] ['b'] (by decide) (by decide)
     (Or.inl (by decide)),
   (parse_duration_failure_modes "xm").2.2.2.2 'm' (by decide) (by decide) (Or.inl rfl)
     (by decide)⟩

theorem parse_duration_nonneg_without_minus_witness :
    parse_duration "90m" = .ok 5400 ∧ (0 : Int) ≤ 5400 :=
  ⟨rfl, parse_duration_nonneg_without_minus "90m" 5400 rfl (by decide)⟩

end OsxCalAddEvent
